import Mathlib

/-!
Verification of the FIX message parsing and validation core of the
`fixparser` repository: the relaxed parser (`src/lib/fix/parser.ts`), the
strict validator (`src/lib/fix/strict.ts`), the repair-suggestion engine
(`repair.ts`) and the tag dictionary (`dictionary.ts`).

JavaScript strings are embedded as `List Char` (`JStr`).  All string
operations used by the source (`split`, `join`, `indexOf`, `substring`,
`startsWith`, `includes`, `trim`, regular-expression matches) are embedded
as explicit recursive functions on `List Char` so that every definition is
executable and every concrete instance can be settled by `decide`.
-/

namespace Fix

/-- Embedding of JavaScript strings: a sequence of characters. -/
abbrev JStr := List Char

/-- The SOH control character `\x01`, the standard FIX field delimiter
(`const SOH = '\x01'` in the source). -/
def SOH : Char := Char.ofNat 1

/-- Embeds `s.split(d)` for a single-character separator `d`: the list of
(possibly empty) chunks of `s` between occurrences of `d`.  A separator
opens a new chunk; any other character extends the current front chunk. -/
def jsSplit (d : Char) (s : JStr) : List JStr :=
  s.foldr (fun c acc => if c = d then [] :: acc else (c :: acc.headD []) :: acc.tail) [[]]

theorem jsSplit_nil (d : Char) : jsSplit d [] = [[]] := rfl

theorem jsSplit_cons (d c : Char) (cs : JStr) :
    jsSplit d (c :: cs) =
      if c = d then [] :: jsSplit d cs
      else (c :: (jsSplit d cs).headD []) :: (jsSplit d cs).tail := rfl

/-- Embeds `parts.join(e)` for a single-character joiner `e`. -/
def jsJoin (e : Char) : List JStr → JStr
  | [] => []
  | [t] => t
  | t :: ts => t ++ e :: jsJoin e ts

/-- Embeds `part.indexOf('=')` followed by `substring(0, i)` /
`substring(i + 1)`: `none` when no `'='` occurs (`indexOf` returns `-1`),
otherwise the text before and after the first `'='`. -/
def splitFirstEq : JStr → Option (JStr × JStr)
  | [] => none
  | c :: cs =>
    if c = '=' then some ([], cs)
    else
      match splitFirstEq cs with
      | none => none
      | some (tag, value) => some (c :: tag, value)

/-- Embeds the tokenization step `raw.split(SOH).filter((part) =>
part.length > 0)` that every strict rule and the relaxed parser repeat. -/
def sohTokens (raw : JStr) : List JStr :=
  (jsSplit SOH raw).filter (fun p => decide (0 < p.length))

/-- Decimal rendering of a nonnegative number, as interpolated by JS
template literals. -/
def natStr (n : Nat) : JStr := (Nat.repr n).data

/-- Embeds `s.includes(pat)` for a multi-character pattern: some
contiguous substring of `s` equals `pat`. -/
def containsSub (pat : JStr) : JStr → Bool
  | [] => pat.isEmpty
  | c :: cs => pat.isPrefixOf (c :: cs) || containsSub pat cs

/-- `TAG_DICTIONARY` from `dictionary.ts`: tag number to human-readable
name. -/
def TAG_DICTIONARY : List (JStr × JStr) :=
  [("8".data, "BeginString".data), ("9".data, "BodyLength".data),
   ("35".data, "MsgType".data), ("49".data, "SenderCompID".data),
   ("56".data, "TargetCompID".data), ("34".data, "MsgSeqNum".data),
   ("52".data, "SendingTime".data), ("10".data, "CheckSum".data),
   ("11".data, "ClOrdID".data), ("37".data, "OrderID".data),
   ("41".data, "OrigClOrdID".data), ("55".data, "Symbol".data),
   ("107".data, "SecurityDesc".data), ("22".data, "SecurityIDSource".data),
   ("48".data, "SecurityID".data), ("54".data, "Side".data),
   ("38".data, "OrderQty".data), ("40".data, "OrdType".data),
   ("44".data, "Price".data), ("59".data, "TimeInForce".data),
   ("99".data, "StopPx".data), ("150".data, "ExecType".data),
   ("39".data, "OrdStatus".data), ("60".data, "TransactTime".data),
   ("32".data, "LastQty".data), ("31".data, "LastPx".data),
   ("151".data, "LeavesQty".data), ("14".data, "CumQty".data),
   ("6".data, "AvgPx".data), ("17".data, "ExecID".data),
   ("19".data, "ExecRefID".data), ("20".data, "ExecTransType".data),
   ("1".data, "Account".data), ("76".data, "ExecBroker".data),
   ("109".data, "ClientID".data), ("58".data, "Text".data),
   ("47".data, "OrderCapacity".data), ("21".data, "HandlInst".data),
   ("18".data, "ExecInst".data), ("100".data, "ExDestination".data),
   ("15".data, "Currency".data), ("64".data, "SettlDate".data),
   ("63".data, "SettlType".data)]

/-- `getTagName(tag) = TAG_DICTIONARY[tag] || tag` — dictionary lookup with
identity fallback (all dictionary values are non-empty, so the JS `||`
only covers the missing-key case). -/
def getTagName (tag : JStr) : JStr :=
  (TAG_DICTIONARY.lookup tag).getD tag

/-- `ParsedField` from `types.ts`. -/
structure ParsedField where
  tag : JStr
  name : JStr
  value : JStr
  deriving DecidableEq, Repr

/-- `MessageSummary` from `types.ts`; every field is optional. -/
structure MessageSummary where
  msgType : Option JStr
  orderKey : Option JStr
  clOrdId : Option JStr
  orderId : Option JStr
  symbol : Option JStr
  side : Option JStr
  qty : Option JStr
  price : Option JStr
  transType : Option JStr
  ordStatus : Option JStr
  deriving DecidableEq, Repr

/-- `ParseIssue` from `types.ts`. -/
structure ParseIssue where
  type : JStr
  message : JStr
  position : Option Nat
  deriving DecidableEq, Repr

/-- `RepairSuggestion` from `types.ts`. -/
structure RepairSuggestion where
  type : JStr
  description : JStr
  preview : Option JStr
  deriving DecidableEq, Repr

/-- `ParsedMessage` from `types.ts`. -/
structure ParsedMessage where
  fields : List ParsedField
  summary : MessageSummary
  warnings : List JStr
  orderKey : Option JStr
  raw : JStr
  deriving DecidableEq, Repr

/-- `StrictParseResult` from `strict.ts`: success with a parsed message, or
failure with an error string and the issue list. -/
inductive StrictParseResult where
  | success (message : ParsedMessage)
  | failure (error : JStr) (issues : List ParseIssue)
  deriving DecidableEq, Repr

/-! ## Relaxed parser (`src/lib/fix/parser.ts`) -/

/-- `detectDelimiter`: first delimiter present in priority order SOH, pipe,
caret; SOH by default.  `raw.includes(c)` for a single character is
character membership. -/
def detectDelimiter (raw : JStr) : Char :=
  if SOH ∈ raw then SOH
  else if '|' ∈ raw then '|'
  else if '^' ∈ raw then '^'
  else SOH

/-- `normalizeDelimiters`: replace every occurrence of the detected
delimiter with SOH via `raw.split(delimiter).join(SOH)`. -/
def normalizeDelimiters (raw : JStr) : JStr :=
  let delimiter := detectDelimiter raw
  if delimiter = SOH then raw
  else jsJoin SOH (jsSplit delimiter raw)

/-- The per-token field extraction of `parseRelaxed`: a token with no `'='`
becomes an unknown-tag field holding the whole token as value. -/
def parseField (part : JStr) : ParsedField :=
  match splitFirstEq part with
  | none => ⟨"?".data, "Unknown".data, part⟩
  | some (tag, value) => ⟨tag, getTagName tag, value⟩

/-- Embeds `new Map(fields.map((f) => [f.tag, f.value])).get(t)`: a JS
`Map` built from a pair list keeps the last write for a duplicated key, so
the lookup returns the value of the last field carrying tag `t`. -/
def lastValue (t : JStr) (fields : List ParsedField) : Option JStr :=
  (fields.reverse.find? (fun f => f.tag == t)).map (·.value)

/-- Embeds the JS expression `a || b` on two optional strings: `a` unless
it is `undefined` or the (falsy) empty string. -/
def jsOrStr (a b : Option JStr) : Option JStr :=
  match a with
  | some v => if v = [] then b else some v
  | none => b

/-- `extractSummary` from `parser.ts`: summary fields via the tag→value
map; `transType` uses the `get('60') || get('150') || get('39')` fallback
chain and `orderKey` repeats `clOrdId`. -/
def extractSummary (fields : List ParsedField) : MessageSummary :=
  { msgType := lastValue ("35".data) fields
    orderKey := lastValue ("11".data) fields
    clOrdId := lastValue ("11".data) fields
    orderId := lastValue ("37".data) fields
    symbol := lastValue ("55".data) fields
    side := lastValue ("54".data) fields
    qty := lastValue ("38".data) fields
    price := lastValue ("44".data) fields
    transType :=
      jsOrStr (jsOrStr (lastValue ("60".data) fields) (lastValue ("150".data) fields))
        (lastValue ("39".data) fields)
    ordStatus := lastValue ("39".data) fields }

/-- `calculateOrderKey`: `fields.find((f) => f.tag === '11')?.value` — the
value of the first field with tag 11. -/
def calculateOrderKey (fields : List ParsedField) : Option JStr :=
  (fields.find? (fun f => f.tag == "11".data)).map (·.value)

/-- Keeps the first occurrence of every element, in first-occurrence
order: the key iteration order of the JS `Map` used for duplicate-tag
counting. -/
def firstOccurrences : List JStr → List JStr
  | [] => []
  | t :: ts => t :: (firstOccurrences ts).filter (fun u => u != t)

/-- `generateWarnings` from `parser.ts` (the `normalized` argument is
received but unused by the source as well). -/
def generateWarnings (raw _normalized : JStr) (fields : List ParsedField) : List JStr :=
  (if detectDelimiter raw ≠ SOH then
    ["Non-standard delimiter detected ('".data ++
      (if detectDelimiter raw = '|' then "pipe".data else "caret".data) ++
      "') and normalized to SOH".data]
   else [])
  ++ (if "8".data ∈ fields.map (·.tag) then [] else ["Missing BeginString (tag 8)".data])
  ++ (if "35".data ∈ fields.map (·.tag) then [] else ["Missing MsgType (tag 35)".data])
  ++ ((firstOccurrences (fields.map (·.tag))).filterMap (fun t =>
        let count := (fields.map (·.tag)).count t
        if 1 < count then
          some ("Duplicate tag ".data ++ t ++ " appears ".data ++ natStr count ++ " times".data)
        else none))
  ++ (let emptyFields := fields.filter (fun f => f.value.isEmpty)
      if 0 < emptyFields.length then
        ["Empty values found in tags: ".data ++
          List.intercalate (", ".data) (emptyFields.map (·.tag))]
      else [])

/-- `parseRelaxed` from `parser.ts`: normalize delimiters, tokenize, build
the field list, then derive summary, order key and warnings.  The `raw`
field of the result stores the normalized text. -/
def parseRelaxed (raw : JStr) : ParsedMessage :=
  let normalized := normalizeDelimiters raw
  let fields := (sohTokens normalized).map parseField
  { fields := fields
    summary := extractSummary fields
    warnings := generateWarnings raw normalized fields
    orderKey := calculateOrderKey fields
    raw := normalized }

/-! ## Strict validator (`src/lib/fix/strict.ts`) -/

/-- The index list built by the character loops of `validateDelimiters`
(`positions`): every index of `raw` holding `c`. -/
def charPositions (c : Char) (s : JStr) : List Nat :=
  (s.enum.filter (fun p => p.2 == c)).map (·.1)

/-- `validateDelimiters`: one `invalid_delimiter` issue for pipes and one
for carets, each at the first occurrence. -/
def validateDelimiters (raw : JStr) : List ParseIssue :=
  (if '|' ∈ raw then
    [⟨"invalid_delimiter".data,
      "Found pipe character ('|') instead of SOH. Use SOH (\\x01) as delimiter.".data,
      some ((charPositions '|' raw).headD 0)⟩]
   else [])
  ++ (if '^' ∈ raw then
    [⟨"invalid_delimiter".data,
      "Found caret character ('^') instead of SOH. Use SOH (\\x01) as delimiter.".data,
      some ((charPositions '^' raw).headD 0)⟩]
   else [])

/-- The tag regular expression `/^\d+$/`: non-empty and all digits. -/
def isNumericTag (tag : JStr) : Bool :=
  decide (tag ≠ []) && tag.all (·.isDigit)

/-- Message of a `missing_equals` issue. -/
def missingEqualsMsg (i : Nat) (part : JStr) : JStr :=
  "Field at position ".data ++ natStr i ++ " is missing '=' separator: \"".data ++
    part ++ "\"".data

/-- Message of an `invalid_tag` issue. -/
def invalidTagMsg (tag : JStr) : JStr :=
  "Tag must be numeric, found: \"".data ++ tag ++ "\"".data

/-- Message of an `empty_tag` issue. -/
def emptyTagMsg (i : Nat) : JStr :=
  "Empty tag at position ".data ++ natStr i

/-- The issues the `validateFormat` loop body emits for the token at
ordinal `i`: `missing_equals` when no `'='` occurs (then the loop
`continue`s), otherwise `invalid_tag` when the tag is not all-digits and
additionally `empty_tag` when the tag is empty. -/
def formatTokenIssues (i : Nat) (part : JStr) : List ParseIssue :=
  match splitFirstEq part with
  | none => [⟨"missing_equals".data, missingEqualsMsg i part, some i⟩]
  | some (tag, _value) =>
    (if isNumericTag tag then [] else [⟨"invalid_tag".data, invalidTagMsg tag, some i⟩])
    ++ (if tag = [] then [⟨"empty_tag".data, emptyTagMsg i, some i⟩] else [])

/-- `validateFormat`: run the loop body over all SOH tokens. -/
def validateFormat (raw : JStr) : List ParseIssue :=
  ((sohTokens raw).enum.map (fun ip => formatTokenIssues ip.1 ip.2)).flatten

/-- `validateRequiredFields`: collect the tags present (tokens that carry
an `'='`) and report each of BeginString (8), BodyLength (9) and
MsgType (35) that is absent. -/
def validateRequiredFields (raw : JStr) : List ParseIssue :=
  let parts := sohTokens raw
  let tags := parts.filterMap (fun part => (splitFirstEq part).map Prod.fst)
  ([("8", "BeginString"), ("9", "BodyLength"), ("35", "MsgType")] : List (String × String)).filterMap
    (fun rt =>
      if rt.1.data ∈ tags then none
      else some ⟨"missing_required_field".data,
        "Missing required field: ".data ++ rt.2.data ++ " (tag ".data ++ rt.1.data ++ ")".data,
        none⟩)

/-- Message of the BeginString-first `invalid_field_order` issue. -/
def beginStringMsg (firstTag : JStr) : JStr :=
  "BeginString (tag 8) must be first field, found tag ".data ++ firstTag ++ " first".data

/-- Message of the CheckSum-last `invalid_field_order` issue. -/
def checksumMsg : JStr :=
  "CheckSum (tag 10) must be last field if present".data

/-- `validateFieldOrder`: the first token must start with `8=`; when a
checksum field is detected (`raw.includes(SOH + '10=') ||
lastField.startsWith('10=')`) the last token must start with `10=`. -/
def validateFieldOrder (raw : JStr) : List ParseIssue :=
  let parts := sohTokens raw
  if parts.length = 0 then []
  else
    let firstField := parts.headD []
    let beginIssues :=
      if ("8=".data).isPrefixOf firstField then []
      else
        let firstTag :=
          match splitFirstEq firstField with
          | some (tag, _) => tag
          | none => "?".data
        [⟨"invalid_field_order".data, beginStringMsg firstTag, some 0⟩]
    let lastField := parts.getLastD []
    let hasChecksum :=
      containsSub (SOH :: "10=".data) raw || ("10=".data).isPrefixOf lastField
    beginIssues ++
      (if hasChecksum && !(("10=".data).isPrefixOf lastField) then
        [⟨"invalid_field_order".data, checksumMsg, some (parts.length - 1)⟩]
      else [])

/-- `validateWhitespace`: leading and trailing space/tab/newline in the
raw text each produce an independent issue. -/
def validateWhitespace (raw : JStr) : List ParseIssue :=
  (if raw.head? = some ' ' ∨ raw.head? = some '\t' ∨ raw.head? = some '\n' then
    [⟨"whitespace_issue".data, "Message has leading whitespace".data, some 0⟩]
   else [])
  ++ (if raw.getLast? = some ' ' ∨ raw.getLast? = some '\t' ∨ raw.getLast? = some '\n' then
    [⟨"whitespace_issue".data, "Message has trailing whitespace".data, some (raw.length - 1)⟩]
   else [])

/-- The aggregated issue list of `parseStrict`: the five
`issues.push(...)` lines, in order. -/
def strictIssues (raw : JStr) : List ParseIssue :=
  validateDelimiters raw ++ validateFormat raw ++ validateRequiredFields raw ++
    validateFieldOrder raw ++ validateWhitespace raw

/-- `parseStrict`: run all validations, fail with the aggregate issue list
when it is non-empty, otherwise delegate to the relaxed parser. -/
def parseStrict (raw : JStr) : StrictParseResult :=
  let issues := strictIssues raw
  if 0 < issues.length then
    .failure ("FIX message validation failed with ".data ++ natStr issues.length ++
      " issue(s)".data) issues
  else
    .success (parseRelaxed raw)

/-! ## Repair suggestion engine (`repair.ts`) -/

/-- The JS `WhiteSpace`/`LineTerminator` character set trimmed by
`String.prototype.trim`. -/
def isJsWhitespace (c : Char) : Bool :=
  c == ' ' || c == '\t' || c == '\n' || c == '\r' ||
  c == Char.ofNat 0x0B || c == Char.ofNat 0x0C ||
  c == Char.ofNat 0xA0 || c == Char.ofNat 0x1680 ||
  (decide (Char.ofNat 0x2000 ≤ c) && decide (c ≤ Char.ofNat 0x200A)) ||
  c == Char.ofNat 0x2028 || c == Char.ofNat 0x2029 ||
  c == Char.ofNat 0x202F || c == Char.ofNat 0x205F ||
  c == Char.ofNat 0x3000 || c == Char.ofNat 0xFEFF

/-- Removes trailing whitespace. -/
def trimEnd (s : JStr) : JStr := (s.reverse.dropWhile isJsWhitespace).reverse

/-- Embeds `s.trim()`: strip leading and trailing whitespace. -/
def jsTrim (s : JStr) : JStr := trimEnd (s.dropWhile isJsWhitespace)

/-- The JS line terminators, which `.` and `$` (without flags) refuse to
cross in `/^(\d+)(.*)$/`. -/
def isLineTerminator (c : Char) : Bool :=
  c == '\n' || c == '\r' || c == Char.ofNat 0x2028 || c == Char.ofNat 0x2029

/-- Embeds `msg.match(/"([^"]+)"/)`, returning capture group 1: the
leftmost occurrence of a quote followed by a non-empty run of non-quote
characters and a closing quote. -/
def matchQuoted : JStr → Option JStr
  | [] => none
  | c :: cs =>
    if c = '"' then
      let content := cs.takeWhile (fun x => x != '"')
      if content ≠ [] ∧ cs.dropWhile (fun x => x != '"') ≠ [] then some content
      else matchQuoted cs
    else matchQuoted cs

/-- Embeds `part.match(/^(\d+)(.*)$/)`: leading digit run and remainder;
fails when the remainder holds a line terminator (`.`/`$` without the
`s`/`m` flags) or when there is no leading digit. -/
def matchTagRest (p : JStr) : Option (JStr × JStr) :=
  let tag := p.takeWhile (·.isDigit)
  let value := p.dropWhile (·.isDigit)
  if tag ≠ [] ∧ value.all (fun c => !isLineTerminator c) then some (tag, value) else none

/-- The JS word characters `\w`. -/
def isWordChar (c : Char) : Bool := c.isAlphanum || c == '_'

/-- One attempt of `/(\w+) \(tag (\d+)\)/` at the current position: the
maximal word run, then literally `" (tag "`, a non-empty digit run and
`')'`. -/
def matchFieldTagAt (s : JStr) : Option (JStr × JStr) :=
  let w := s.takeWhile isWordChar
  if w = [] then none
  else
    let rest := s.dropWhile isWordChar
    if (" (tag ".data).isPrefixOf rest then
      let rest2 := rest.drop 6
      let ds := rest2.takeWhile (·.isDigit)
      if ds = [] then none
      else if (rest2.dropWhile (·.isDigit)).headD ' ' = ')' then some (w, ds)
      else none
    else none

/-- Embeds `msg.match(/(\w+) \(tag (\d+)\)/)`, returning the two capture
groups of the leftmost match. -/
def matchFieldTag : JStr → Option (JStr × JStr)
  | [] => none
  | c :: cs =>
    match matchFieldTagAt (c :: cs) with
    | some r => some r
    | none => matchFieldTag cs

/-- The delimiter-normalization block of `generateRepairSuggestions`. -/
def suggestDelimiters (raw : JStr) (issues : List ParseIssue) : List RepairSuggestion :=
  if "invalid_delimiter".data ∈ issues.map (·.type) then
    let hasPipe : Bool := decide ('|' ∈ raw)
    let hasCaret : Bool := decide ('^' ∈ raw)
    if hasPipe || hasCaret then
      let delimiter := if hasPipe then '|' else '^'
      let delimiterName := if hasPipe then "pipe".data else "caret".data
      let preview := (jsJoin SOH (jsSplit delimiter raw)).take 100
      [⟨"normalize_delimiters".data,
        "Replace ".data ++ delimiterName ++ " characters with SOH (\\x01) delimiter".data,
        some (preview ++ (if 100 < raw.length then "...".data else []))⟩]
    else []
  else []

/-- The whitespace-cleanup block of `generateRepairSuggestions`, built on
`raw.trim()` (embedded by `jsTrim` below). -/
def suggestWhitespace (raw : JStr) (issues : List ParseIssue) : List RepairSuggestion :=
  if "whitespace_issue".data ∈ issues.map (·.type) then
    let trimmed := jsTrim raw
    [⟨"trim_whitespace".data, "Remove leading and trailing whitespace".data,
      some (trimmed.take 100 ++ (if 100 < trimmed.length then "...".data else []))⟩]
  else []

/-- The missing-equals block of `generateRepairSuggestions`: extract the
offending token from the first issue's message text and propose inserting
`'='` after its leading digit run. -/
def suggestMissingEquals (issues : List ParseIssue) : List RepairSuggestion :=
  if "missing_equals".data ∈ issues.map (·.type) then
    match issues.filter (fun i => i.type == "missing_equals".data) with
    | [] => []
    | firstIssue :: _ =>
      match matchQuoted firstIssue.message with
      | none => []
      | some problematicPart =>
        if (problematicPart.headD ' ').isDigit then
          match matchTagRest problematicPart with
          | none => []
          | some (tag, value) =>
            [⟨"add_equals".data,
              "Add '=' separator after numeric tag ".data ++ tag,
              some ("...".data ++ tag ++ "=".data ++ value ++ "...".data)⟩]
        else []
  else []

/-- The invalid-tag block of `generateRepairSuggestions`. -/
def suggestInvalidTag (issues : List ParseIssue) : List RepairSuggestion :=
  if "invalid_tag".data ∈ issues.map (·.type) then
    [⟨"fix_tag_format".data, "Ensure all tags are numeric values".data,
      some ("Example: 35=D (tag must be a number)".data)⟩]
  else []

/-- The missing-required-fields block of `generateRepairSuggestions`:
every name/tag pair recovered from issue messages, listed together. -/
def suggestRequiredFields (issues : List ParseIssue) : List RepairSuggestion :=
  if "missing_required_field".data ∈ issues.map (·.type) then
    let missingFields := (issues.filter (fun i => i.type == "missing_required_field".data)).filterMap
      (fun i => matchFieldTag i.message)
    if 0 < missingFields.length then
      [⟨"add_required_fields".data,
        "Add missing required fields: ".data ++
          List.intercalate (", ".data)
            (missingFields.map (fun ft => ft.1 ++ " (".data ++ ft.2 ++ ")".data)),
        some ("Example: 8=FIX.4.4 (BeginString must be present)".data)⟩]
    else []
  else []

/-- The field-order block of `generateRepairSuggestions`: one suggestion
per `invalid_field_order` issue whose message mentions BeginString or
CheckSum (BeginString takes precedence inside one message). -/
def suggestFieldOrder (issues : List ParseIssue) : List RepairSuggestion :=
  if "invalid_field_order".data ∈ issues.map (·.type) then
    (issues.filter (fun i => i.type == "invalid_field_order".data)).filterMap (fun issue =>
      if containsSub ("BeginString".data) issue.message then
        some ⟨"reorder_fields".data,
          "Move BeginString (tag 8) to the beginning of the message".data,
          some ("8=FIX.4.4\x01...".data)⟩
      else if containsSub ("CheckSum".data) issue.message then
        some ⟨"reorder_fields".data,
          "Move CheckSum (tag 10) to the end of the message".data,
          some ("...\x0110=123".data)⟩
      else none)
  else []

/-- `generateRepairSuggestions` from `repair.ts`: the six blocks in fixed
order, then the `general` fallback when no block fired although issues
exist. -/
def generateRepairSuggestions (raw : JStr) (issues : List ParseIssue) : List RepairSuggestion :=
  let suggestions :=
    suggestDelimiters raw issues ++ suggestWhitespace raw issues ++
    suggestMissingEquals issues ++ suggestInvalidTag issues ++
    suggestRequiredFields issues ++ suggestFieldOrder issues
  if suggestions.length = 0 ∧ 0 < issues.length then
    [⟨"general".data,
      "Fix ".data ++ natStr issues.length ++ " validation issue(s) found in the message".data,
      some ("Review the issues list and correct the message format".data)⟩]
  else
    suggestions

/-- `autoRepair` from `repair.ts`: trim whitespace, then normalize pipe
and caret delimiters, tracking whether anything changed; `null` when no
transform applied. -/
def autoRepair (raw : JStr) : Option JStr :=
  let trimmed := jsTrim raw
  let modified1 : Bool := trimmed != raw
  let repaired2 := if '|' ∈ trimmed then jsJoin SOH (jsSplit '|' trimmed) else trimmed
  let modified2 : Bool := if '|' ∈ trimmed then true else modified1
  let repaired3 := if '^' ∈ repaired2 then jsJoin SOH (jsSplit '^' repaired2) else repaired2
  let modified3 : Bool := if '^' ∈ repaired2 then true else modified2
  if modified3 then some repaired3 else none

/-! ## Helper lemmas -/

theorem jsSplit_ne_nil (d : Char) (s : JStr) : jsSplit d s ≠ [] := by
  cases s with
  | nil => simp [jsSplit_nil]
  | cons c cs => rw [jsSplit_cons]; split <;> simp

theorem jsJoin_cons_cons (e c : Char) (t : JStr) (ts : List JStr) :
    jsJoin e ((c :: t) :: ts) = c :: jsJoin e (t :: ts) := by
  cases ts <;> simp [jsJoin]

/-- `s.split(d).join(e)` replaces every occurrence of `d` with `e`. -/
theorem jsJoin_jsSplit_eq_map (d e : Char) (s : JStr) :
    jsJoin e (jsSplit d s) = s.map (fun c => if c = d then e else c) := by
  induction s with
  | nil => rfl
  | cons c cs ih =>
    rw [jsSplit_cons, List.map_cons]
    cases hsp : jsSplit d cs with
    | nil => exact absurd hsp (jsSplit_ne_nil d cs)
    | cons t ts =>
      by_cases hc : c = d
      · rw [if_pos hc, if_pos hc]
        have h1 : jsJoin e ([] :: t :: ts) = e :: jsJoin e (t :: ts) := by simp [jsJoin]
        rw [h1, ← hsp, ih]
      · rw [if_neg hc, if_neg hc, List.headD_cons, List.tail_cons, jsJoin_cons_cons, ← hsp, ih]

theorem count_map_replace_ne (d e x : Char) (hd : x ≠ d) (he : x ≠ e) (s : JStr) :
    (s.map (fun c => if c = d then e else c)).count x = s.count x := by
  induction s with
  | nil => rfl
  | cons c cs ih =>
    simp only [List.map_cons, List.count_cons, ih]
    by_cases hc : c = d
    · have hcx : c ≠ x := fun hh => hd (hh ▸ hc)
      rw [if_pos hc]
      rw [show (e == x) = false by simp [Ne.symm he]]
      rw [show (c == x) = false by simp [hcx]]
    · rw [if_neg hc]

theorem not_mem_map_replace_self (d e : Char) (hne : e ≠ d) (s : JStr) :
    d ∉ s.map (fun c => if c = d then e else c) := by
  intro hmem
  rcases List.mem_map.mp hmem with ⟨c, _, hc⟩
  by_cases h : c = d
  · rw [if_pos h] at hc; exact hne hc
  · rw [if_neg h] at hc; exact h hc

theorem mem_map_replace_other (d e x : Char) (hd : x ≠ d) (he : x ≠ e) (s : JStr) :
    x ∈ s.map (fun c => if c = d then e else c) ↔ x ∈ s := by
  constructor
  · intro hmem
    rcases List.mem_map.mp hmem with ⟨c, hcs, hc⟩
    by_cases h : c = d
    · rw [if_pos h] at hc; exact absurd hc.symm he
    · rw [if_neg h] at hc; exact hc ▸ hcs
  · intro hmem
    exact List.mem_map.mpr ⟨x, hmem, if_neg hd⟩

/-! ## Claim theorems: strict aggregation and delegation -/

/-- Claim C1: `parseStrict` runs all five rule categories without
short-circuiting, fails exactly when the aggregated issue list is
non-empty, reports the error string with the issue count, and the
aggregate contains every issue of every violated category. -/
theorem parseStrict_aggregates_all_rules (raw : JStr) :
    (strictIssues raw = [] → parseStrict raw = StrictParseResult.success (parseRelaxed raw))
    ∧ (strictIssues raw ≠ [] →
        parseStrict raw = StrictParseResult.failure
          ("FIX message validation failed with ".data ++ natStr (strictIssues raw).length ++
            " issue(s)".data)
          (strictIssues raw))
    ∧ (∀ i ∈ validateDelimiters raw, i ∈ strictIssues raw)
    ∧ (∀ i ∈ validateFormat raw, i ∈ strictIssues raw)
    ∧ (∀ i ∈ validateRequiredFields raw, i ∈ strictIssues raw)
    ∧ (∀ i ∈ validateFieldOrder raw, i ∈ strictIssues raw)
    ∧ (∀ i ∈ validateWhitespace raw, i ∈ strictIssues raw) := by
  refine ⟨?_, ?_, ?_, ?_, ?_, ?_, ?_⟩
  · intro h; simp [parseStrict, h]
  · intro h
    have hl : 0 < (strictIssues raw).length := List.length_pos.mpr h
    simp [parseStrict, hl]
  all_goals
    intro i hi
    unfold strictIssues
    simp only [List.mem_append]
    tauto

/-- Witness for C1 at the concrete input `"abc"`. -/
theorem parseStrict_aggregates_all_rules_witness :
    strictIssues ("abc".data) ≠ [] ∧
      parseStrict ("abc".data) = StrictParseResult.failure
        ("FIX message validation failed with ".data ++ natStr (strictIssues ("abc".data)).length ++
          " issue(s)".data)
        (strictIssues ("abc".data)) :=
  ⟨by decide, (parseStrict_aggregates_all_rules ("abc".data)).2.1 (by decide)⟩

/-- Claim C2: a strict success carries exactly the relaxed parse of the
same raw text, so its fields equal the relaxed parser's fields. -/
theorem parseStrict_success_fields_eq_relaxed (raw : JStr) (m : ParsedMessage)
    (h : parseStrict raw = StrictParseResult.success m) :
    m.fields = (parseRelaxed raw).fields := by
  by_cases hl : 0 < (strictIssues raw).length
  · simp [parseStrict, hl] at h
  · simp [parseStrict, hl] at h
    rw [← h]

/-- Witness for C2 at a strictly valid message. -/
theorem parseStrict_success_fields_eq_relaxed_witness :
    (parseRelaxed ("8=FIX.4.4\x019=100\x0135=D\x01".data)).fields =
      (parseRelaxed ("8=FIX.4.4\x019=100\x0135=D\x01".data)).fields :=
  parseStrict_success_fields_eq_relaxed ("8=FIX.4.4\x019=100\x0135=D\x01".data)
    (parseRelaxed ("8=FIX.4.4\x019=100\x0135=D\x01".data)) (by decide)

/-! ## Claim theorems: delimiter normalization -/

theorem normalizeDelimiters_eq_or_SOH_mem (raw : JStr) :
    normalizeDelimiters raw = raw ∨ SOH ∈ normalizeDelimiters raw := by
  by_cases h1 : SOH ∈ raw
  · left; simp [normalizeDelimiters, detectDelimiter, h1]
  by_cases h2 : '|' ∈ raw
  · right
    have hd : detectDelimiter raw = '|' := by simp [detectDelimiter, h1, h2]
    have hn : normalizeDelimiters raw = raw.map (fun c => if c = '|' then SOH else c) := by
      simp only [normalizeDelimiters, hd]
      rw [if_neg (by decide), jsJoin_jsSplit_eq_map]
    rw [hn]
    exact List.mem_map.mpr ⟨'|', h2, by simp⟩
  by_cases h3 : '^' ∈ raw
  · right
    have hd : detectDelimiter raw = '^' := by simp [detectDelimiter, h1, h2, h3]
    have hn : normalizeDelimiters raw = raw.map (fun c => if c = '^' then SOH else c) := by
      simp only [normalizeDelimiters, hd]
      rw [if_neg (by decide), jsJoin_jsSplit_eq_map]
    rw [hn]
    exact List.mem_map.mpr ⟨'^', h3, by simp⟩
  · left; simp [normalizeDelimiters, detectDelimiter, h1, h2, h3]

/-- Claim C5: re-parsing the delimiter-normalized text stored in `raw` is
a no-op on that field. -/
theorem relaxed_raw_idempotent (raw : JStr) :
    (parseRelaxed ((parseRelaxed raw).raw)).raw = (parseRelaxed raw).raw := by
  show normalizeDelimiters (normalizeDelimiters raw) = normalizeDelimiters raw
  rcases normalizeDelimiters_eq_or_SOH_mem raw with h | h
  · rw [h]; exact h
  · generalize normalizeDelimiters raw = s at h ⊢
    simp [normalizeDelimiters, detectDelimiter, h]

/-- Claim C8: exactly one delimiter is detected — the first present in
priority order SOH, pipe, caret, defaulting to SOH — and only that
delimiter is normalized; with pipes and carets but no SOH, only pipes are
replaced and every caret survives. -/
theorem detect_normalize_single_delimiter (raw : JStr) :
    (SOH ∈ raw → normalizeDelimiters raw = raw)
    ∧ (SOH ∉ raw → '|' ∈ raw →
        detectDelimiter raw = '|'
        ∧ normalizeDelimiters raw = raw.map (fun c => if c = '|' then SOH else c)
        ∧ (normalizeDelimiters raw).count '^' = raw.count '^'
        ∧ '|' ∉ normalizeDelimiters raw)
    ∧ (SOH ∉ raw → '|' ∉ raw → '^' ∈ raw →
        detectDelimiter raw = '^'
        ∧ normalizeDelimiters raw = raw.map (fun c => if c = '^' then SOH else c))
    ∧ (SOH ∉ raw → '|' ∉ raw → '^' ∉ raw →
        detectDelimiter raw = SOH ∧ normalizeDelimiters raw = raw) := by
  refine ⟨?_, ?_, ?_, ?_⟩
  · intro h1; simp [normalizeDelimiters, detectDelimiter, h1]
  · intro h1 h2
    have hd : detectDelimiter raw = '|' := by simp [detectDelimiter, h1, h2]
    have hn : normalizeDelimiters raw = raw.map (fun c => if c = '|' then SOH else c) := by
      simp only [normalizeDelimiters, hd]
      rw [if_neg (by decide), jsJoin_jsSplit_eq_map]
    refine ⟨hd, hn, ?_, ?_⟩
    · rw [hn]; exact count_map_replace_ne '|' SOH '^' (by decide) (by decide) raw
    · rw [hn]; exact not_mem_map_replace_self '|' SOH (by decide) raw
  · intro h1 h2 h3
    have hd : detectDelimiter raw = '^' := by simp [detectDelimiter, h1, h2, h3]
    have hn : normalizeDelimiters raw = raw.map (fun c => if c = '^' then SOH else c) := by
      simp only [normalizeDelimiters, hd]
      rw [if_neg (by decide), jsJoin_jsSplit_eq_map]
    exact ⟨hd, hn⟩
  · intro h1 h2 h3
    have hd : detectDelimiter raw = SOH := by simp [detectDelimiter, h1, h2, h3]
    exact ⟨hd, by simp [normalizeDelimiters, hd]⟩

/-- Witness for C8 at a message mixing pipes and carets without SOH. -/
theorem detect_normalize_single_delimiter_witness :
    detectDelimiter ("8=X|55=A^B".data) = '|'
    ∧ normalizeDelimiters ("8=X|55=A^B".data) =
        ("8=X|55=A^B".data).map (fun c => if c = '|' then SOH else c)
    ∧ (normalizeDelimiters ("8=X|55=A^B".data)).count '^' = ("8=X|55=A^B".data).count '^'
    ∧ '|' ∉ normalizeDelimiters ("8=X|55=A^B".data) :=
  (detect_normalize_single_delimiter ("8=X|55=A^B".data)).2.1 (by decide) (by decide)

/-! ## Claim theorems: order key and summary fallbacks -/

theorem find?_reverse_of_subsingleton {α : Type} (p : α → Bool) (l : List α)
    (h : (l.filter p).length ≤ 1) : l.reverse.find? p = l.find? p := by
  cases hf : l.find? p with
  | none =>
    have hall : ∀ x ∈ l, ¬ p x := by
      intro x hx hpx
      exact (List.find?_eq_none.mp hf x hx) hpx
    cases hr : l.reverse.find? p with
    | none => rfl
    | some b =>
      have hpb := List.find?_some hr
      have hb := List.mem_reverse.mp (List.mem_of_find?_eq_some hr)
      exact absurd hpb (hall b hb)
  | some a =>
    have hpa := List.find?_some hf
    have ha := List.mem_of_find?_eq_some hf
    have haf : a ∈ l.filter p := List.mem_filter.mpr ⟨ha, hpa⟩
    cases hr : l.reverse.find? p with
    | none =>
      have := List.find?_eq_none.mp hr a (List.mem_reverse.mpr ha)
      exact absurd hpa this
    | some b =>
      have hpb := List.find?_some hr
      have hb : b ∈ l := List.mem_reverse.mp (List.mem_of_find?_eq_some hr)
      have hbf : b ∈ l.filter p := List.mem_filter.mpr ⟨hb, hpb⟩
      cases hfl : l.filter p with
      | nil => rw [hfl] at haf; simp at haf
      | cons x xs =>
        rw [hfl] at h haf hbf
        have hxs : xs = [] := by
          cases xs with
          | nil => rfl
          | cons y ys => simp at h
        subst hxs
        simp only [List.mem_singleton] at haf hbf
        rw [hbf, ← haf]

/-- Claim C4 counterexample: with two tag-11 fields the top-level
`orderKey` keeps the first value while the summary's `clOrdId` keeps the
last, so they differ. -/
theorem orderKey_clOrdId_counterexample :
    (parseRelaxed ("11=A\x0111=B".data)).orderKey = some ("A".data)
    ∧ (parseRelaxed ("11=A\x0111=B".data)).summary.clOrdId = some ("B".data)
    ∧ (parseRelaxed ("11=A\x0111=B".data)).orderKey ≠
        (parseRelaxed ("11=A\x0111=B".data)).summary.clOrdId := by decide

/-- Claim C4 amended: the top-level `orderKey` is the value of the first
tag-11 field and the summary's `clOrdId` (equal to the summary's
`orderKey`) the value of the last; they coincide whenever tag 11 occurs
at most once, and both are undefined when tag 11 is absent. -/
theorem orderKey_first_vs_clOrdId_last (raw : JStr) :
    (parseRelaxed raw).orderKey =
      ((parseRelaxed raw).fields.find? (fun f => f.tag == "11".data)).map (·.value)
    ∧ (parseRelaxed raw).summary.clOrdId =
      ((parseRelaxed raw).fields.reverse.find? (fun f => f.tag == "11".data)).map (·.value)
    ∧ (parseRelaxed raw).summary.orderKey = (parseRelaxed raw).summary.clOrdId
    ∧ (((parseRelaxed raw).fields.filter (fun f => f.tag == "11".data)).length ≤ 1 →
        (parseRelaxed raw).orderKey = (parseRelaxed raw).summary.clOrdId)
    ∧ ((∀ f ∈ (parseRelaxed raw).fields, f.tag ≠ "11".data) →
        (parseRelaxed raw).orderKey = none ∧ (parseRelaxed raw).summary.clOrdId = none) := by
  refine ⟨rfl, rfl, rfl, ?_, ?_⟩
  · intro h
    show calculateOrderKey (parseRelaxed raw).fields =
      lastValue ("11".data) (parseRelaxed raw).fields
    unfold calculateOrderKey lastValue
    rw [find?_reverse_of_subsingleton _ _ h]
  · intro h
    have hnone : (parseRelaxed raw).fields.find? (fun f => f.tag == "11".data) = none := by
      apply List.find?_eq_none.mpr
      intro f hf
      simp [h f hf]
    have hrev : (parseRelaxed raw).fields.reverse.find? (fun f => f.tag == "11".data) = none := by
      apply List.find?_eq_none.mpr
      intro f hf
      simp [h f (List.mem_reverse.mp hf)]
    constructor
    · show calculateOrderKey (parseRelaxed raw).fields = none
      unfold calculateOrderKey
      rw [hnone]; rfl
    · show lastValue ("11".data) (parseRelaxed raw).fields = none
      unfold lastValue
      rw [hrev]; rfl

/-- Witness for C4 (amended) at a message without tag 11, discharging
both hypotheses. -/
theorem orderKey_first_vs_clOrdId_last_witness :
    ((parseRelaxed ("55=A".data)).orderKey = (parseRelaxed ("55=A".data)).summary.clOrdId)
    ∧ ((parseRelaxed ("55=A".data)).orderKey = none
        ∧ (parseRelaxed ("55=A".data)).summary.clOrdId = none) :=
  ⟨(orderKey_first_vs_clOrdId_last ("55=A".data)).2.2.2.1 (by decide),
   (orderKey_first_vs_clOrdId_last ("55=A".data)).2.2.2.2 (by decide)⟩

/-- The JS `a || b || c` chain on optional strings, written as explicit
truthiness tests. -/
theorem jsOrStr_chain (a b c : Option JStr) :
    jsOrStr (jsOrStr a b) c =
      (if a ≠ none ∧ a ≠ some [] then a
       else if b ≠ none ∧ b ≠ some [] then b else c) := by
  have hb : jsOrStr b c = (if b ≠ none ∧ b ≠ some [] then b else c) := by
    cases b with
    | none => simp [jsOrStr]
    | some v =>
      cases v with
      | nil => simp [jsOrStr]
      | cons x xs => simp [jsOrStr]
  cases a with
  | none =>
    rw [show jsOrStr (jsOrStr none b) c = jsOrStr b c from rfl, hb,
      if_neg (show ¬((none : Option JStr) ≠ none ∧ (none : Option JStr) ≠ some []) by simp)]
  | some v =>
    cases v with
    | nil =>
      rw [show jsOrStr (jsOrStr (some []) b) c = jsOrStr b c from rfl, hb,
        if_neg (show ¬(some ([] : JStr) ≠ none ∧ some ([] : JStr) ≠ some []) by simp)]
    | cons x xs =>
      rw [show jsOrStr (jsOrStr (some (x :: xs)) b) c = some (x :: xs) from rfl,
        if_pos (show some (x :: xs) ≠ none ∧ some (x :: xs) ≠ some [] by simp)]

/-- Claim C9 counterexample: tag 60 is present (with empty value) yet
`transType` is taken from tag 150 — the JS `||` chain skips falsy empty
strings, so "present" is not sufficient. -/
theorem transType_counterexample :
    ((parseRelaxed ("60=\x01150=X".data)).fields.find? (fun f => f.tag == "60".data)).isSome = true
    ∧ (parseRelaxed ("60=\x01150=X".data)).summary.transType = some ("X".data)
    ∧ ((parseRelaxed ("60=\x01150=X".data)).fields.find?
        (fun f => f.tag == "60".data)).map (·.value) ≠ some ("X".data) := by decide

/-- Claim C9 amended: `transType` is the last value of tag 60 when that
value is present and non-empty, else the last value of tag 150 when
present and non-empty, else the last value of tag 39 (possibly empty,
undefined when tag 39 is absent). -/
theorem transType_fallback_chain (raw : JStr) :
    (parseRelaxed raw).summary.transType =
      (if lastValue ("60".data) (parseRelaxed raw).fields ≠ none
          ∧ lastValue ("60".data) (parseRelaxed raw).fields ≠ some [] then
        lastValue ("60".data) (parseRelaxed raw).fields
      else if lastValue ("150".data) (parseRelaxed raw).fields ≠ none
          ∧ lastValue ("150".data) (parseRelaxed raw).fields ≠ some [] then
        lastValue ("150".data) (parseRelaxed raw).fields
      else lastValue ("39".data) (parseRelaxed raw).fields) :=
  jsOrStr_chain _ _ _

/-! ## Claim theorems: format rule double issue -/

theorem mem_enumFrom_get {α : Type} (l : List α) :
    ∀ (n i : Nat) (h : i < l.length), (n + i, l.get ⟨i, h⟩) ∈ l.enumFrom n := by
  induction l with
  | nil => intro n i h; simp at h
  | cons a as ih =>
    intro n i h
    cases i with
    | zero => simp [List.enumFrom]
    | succ j =>
      have hj : j < as.length := Nat.lt_of_succ_lt_succ h
      have hmem := ih (n + 1) j hj
      have heq : n + (j + 1) = (n + 1) + j := by omega
      simp only [List.enumFrom, List.mem_cons]
      right
      rw [heq]
      exact hmem

theorem mem_enum_get {α : Type} (l : List α) (i : Nat) (h : i < l.length) :
    (i, l.get ⟨i, h⟩) ∈ l.enum := by
  have := mem_enumFrom_get l 0 i h
  simpa [List.enum] using this

/-- Claim C10: a non-empty token whose first `'='` sits at index 0 makes
the format rule emit exactly two issues — `invalid_tag` and `empty_tag` —
both at the token's ordinal position. -/
theorem emptyTag_token_two_issues (raw : JStr) (i : Nat) (h : i < (sohTokens raw).length)
    (he : ((sohTokens raw).get ⟨i, h⟩).head? = some '=') :
    formatTokenIssues i ((sohTokens raw).get ⟨i, h⟩) =
      [⟨"invalid_tag".data, invalidTagMsg [], some i⟩,
       ⟨"empty_tag".data, emptyTagMsg i, some i⟩]
    ∧ (⟨"invalid_tag".data, invalidTagMsg [], some i⟩ : ParseIssue) ∈ validateFormat raw
    ∧ (⟨"empty_tag".data, emptyTagMsg i, some i⟩ : ParseIssue) ∈ validateFormat raw := by
  have heq : ∀ tok : JStr, tok.head? = some '=' →
      formatTokenIssues i tok =
        [⟨"invalid_tag".data, invalidTagMsg [], some i⟩,
         ⟨"empty_tag".data, emptyTagMsg i, some i⟩] := by
    intro tok htok
    cases tok with
    | nil => simp at htok
    | cons c cs =>
      simp only [List.head?_cons, Option.some.injEq] at htok
      subst htok
      simp [formatTokenIssues, splitFirstEq, isNumericTag]
  have heq := heq ((sohTokens raw).get ⟨i, h⟩) he
  have hmem : formatTokenIssues i ((sohTokens raw).get ⟨i, h⟩) ∈
      (sohTokens raw).enum.map (fun ip => formatTokenIssues ip.1 ip.2) :=
    List.mem_map.mpr ⟨(i, (sohTokens raw).get ⟨i, h⟩), mem_enum_get _ i h, rfl⟩
  have hsub : ∀ x ∈ formatTokenIssues i ((sohTokens raw).get ⟨i, h⟩), x ∈ validateFormat raw := by
    intro x hx
    exact List.mem_flatten.mpr ⟨_, hmem, hx⟩
  refine ⟨heq, hsub _ ?_, hsub _ ?_⟩ <;> rw [heq] <;> simp

/-- Witness for C10 at the token `"=v"`. -/
theorem emptyTag_token_two_issues_witness :
    formatTokenIssues 0 ((sohTokens ("=v".data)).get ⟨0, by decide⟩) =
      [⟨"invalid_tag".data, invalidTagMsg [], some 0⟩,
       ⟨"empty_tag".data, emptyTagMsg 0, some 0⟩]
    ∧ (⟨"invalid_tag".data, invalidTagMsg [], some 0⟩ : ParseIssue) ∈ validateFormat ("=v".data)
    ∧ (⟨"empty_tag".data, emptyTagMsg 0, some 0⟩ : ParseIssue) ∈ validateFormat ("=v".data) :=
  emptyTag_token_two_issues ("=v".data) 0 (by decide) (by decide)

/-! ## Claim theorems: CheckSum field-order rule -/

theorem beginStringMsg_ne_checksumMsg (t : JStr) : beginStringMsg t ≠ checksumMsg := by
  intro h
  have h1 : (beginStringMsg t).head? = some 'B' := rfl
  rw [h] at h1
  have h2 : checksumMsg.head? = some 'C' := rfl
  rw [h1] at h2
  simp at h2

/-- Claim C6 counterexample: the first token begins with `10=` and the
last does not, yet `validateFieldOrder` reports only the BeginString
issue — the code only looks for `SOH + "10="` or a `10=`-prefixed last
token, missing a checksum token at the very start. -/
theorem checksum_order_counterexample :
    ("10=".data).isPrefixOf ((sohTokens ("10=0\x018=F".data)).headD []) = true
    ∧ ("10=".data).isPrefixOf ((sohTokens ("10=0\x018=F".data)).getLastD []) = false
    ∧ validateFieldOrder ("10=0\x018=F".data)
        = [⟨"invalid_field_order".data, beginStringMsg ("10".data), some 0⟩] := by decide

/-- Claim C6 amended: the CheckSum-must-be-last issue (at position token
count − 1) is reported iff the token list is non-empty, `raw` contains
SOH immediately followed by `10=` or the last token starts with `10=`
(equivalently, given the next conjunct, the SOH-prefixed occurrence), and
the last non-empty token does not start with `10=`. -/
theorem checksum_order_issue_iff (raw : JStr) :
    ((⟨"invalid_field_order".data, checksumMsg, some ((sohTokens raw).length - 1)⟩ : ParseIssue)
        ∈ validateFieldOrder raw)
    ↔ (sohTokens raw ≠ []
       ∧ containsSub (SOH :: "10=".data) raw = true
       ∧ ("10=".data).isPrefixOf ((sohTokens raw).getLastD []) = false) := by
  have hnb : ∀ (b : Bool) (ft : JStr),
      (⟨"invalid_field_order".data, checksumMsg, some ((sohTokens raw).length - 1)⟩ : ParseIssue)
        ∉ (if b then ([] : List ParseIssue)
           else [⟨"invalid_field_order".data, beginStringMsg ft, some 0⟩]) := by
    intro b ft hmem
    cases b with
    | true =>
      rw [if_pos rfl] at hmem
      exact List.not_mem_nil _ hmem
    | false =>
      rw [if_neg (by simp : ¬ (false = true))] at hmem
      rw [List.mem_singleton] at hmem
      have hmsg := congrArg ParseIssue.message hmem
      exact beginStringMsg_ne_checksumMsg ft hmsg.symm
  have hiff : ∀ (b : Bool) (x y : ParseIssue), (x ∈ (if b then [y] else [])) ↔ (b = true ∧ x = y) := by
    intro b x y
    cases b with
    | true => simp
    | false => simp
  by_cases hp : (sohTokens raw).length = 0
  · constructor
    · intro hmem
      simp only [validateFieldOrder] at hmem
      rw [if_pos hp] at hmem
      exact absurd hmem (List.not_mem_nil _)
    · intro hcond
      exact absurd (List.length_eq_zero.mp hp) hcond.1
  · have hne : sohTokens raw ≠ [] := by
      intro hh
      exact hp (by rw [hh]; rfl)
    simp only [validateFieldOrder]
    rw [if_neg hp, List.mem_append]
    constructor
    · rintro (hmem | hmem)
      · exact absurd hmem (hnb _ _)
      · rcases (hiff _ _ _).mp hmem with ⟨hb, _⟩
        rcases Bool.and_eq_true _ _ |>.mp hb with ⟨hb1, hb2⟩
        cases hpt : ("10=".data).isPrefixOf ((sohTokens raw).getLastD []) with
        | true => rw [hpt] at hb2; simp at hb2
        | false =>
          rw [hpt] at hb1
          refine ⟨hne, ?_, rfl⟩
          rcases Bool.or_eq_true _ _ |>.mp hb1 with hcs | hfalse
          · exact hcs
          · simp at hfalse
    · rintro ⟨_, h2, h3⟩
      right
      apply (hiff _ _ _).mpr
      refine ⟨?_, rfl⟩
      rw [h2, h3]
      rfl

/-! ## Claim theorems: autoRepair -/

theorem dropWhile_eq_self_iff_head (p : Char → Bool) (l : JStr) :
    l.dropWhile p = l ↔ (∀ c, l.head? = some c → p c = false) := by
  cases l with
  | nil => simp
  | cons a as =>
    rw [List.dropWhile_cons]
    by_cases hpa : p a = true
    · rw [if_pos hpa]
      constructor
      · intro h
        have hlen := congrArg List.length h
        have hle : (as.dropWhile p).length ≤ as.length :=
          (List.dropWhile_sublist p).length_le
        simp only [List.length_cons] at hlen
        omega
      · intro h
        have := h a rfl
        rw [this] at hpa
        cases hpa
    · rw [if_neg hpa]
      constructor
      · intro _ c hc
        simp only [List.head?_cons, Option.some.injEq] at hc
        rw [← hc]
        cases hb : p a with
        | false => rfl
        | true => exact absurd hb hpa
      · intro _; rfl

theorem jsTrim_eq_self_iff (s : JStr) :
    jsTrim s = s ↔ ((∀ c, s.head? = some c → isJsWhitespace c = false)
      ∧ (∀ c, s.getLast? = some c → isJsWhitespace c = false)) := by
  constructor
  · intro h
    have hle1 : (s.dropWhile isJsWhitespace).length ≤ s.length :=
      (List.dropWhile_sublist isJsWhitespace).length_le
    have hle2 : (jsTrim s).length ≤ (s.dropWhile isJsWhitespace).length := by
      unfold jsTrim trimEnd
      rw [List.length_reverse]
      calc ((s.dropWhile isJsWhitespace).reverse.dropWhile isJsWhitespace).length
          ≤ (s.dropWhile isJsWhitespace).reverse.length :=
            (List.dropWhile_sublist isJsWhitespace).length_le
        _ = (s.dropWhile isJsWhitespace).length := List.length_reverse _
    have hlenEq : (jsTrim s).length = s.length := by rw [h]
    have hdEq : s.dropWhile isJsWhitespace = s :=
      (List.dropWhile_suffix isJsWhitespace).sublist.eq_of_length (by omega)
    have htrimEnd : trimEnd s = s := by
      have hts : jsTrim s = trimEnd s := by unfold jsTrim; rw [hdEq]
      rw [← hts, h]
    have hrev : s.reverse.dropWhile isJsWhitespace = s.reverse := by
      have hc := congrArg List.reverse htrimEnd
      unfold trimEnd at hc
      rw [List.reverse_reverse] at hc
      exact hc
    refine ⟨(dropWhile_eq_self_iff_head _ _).mp hdEq, ?_⟩
    intro c hc
    apply (dropWhile_eq_self_iff_head _ _).mp hrev
    rw [List.head?_reverse]
    exact hc
  · rintro ⟨h1, h2⟩
    have hd : s.dropWhile isJsWhitespace = s := (dropWhile_eq_self_iff_head _ _).mpr h1
    unfold jsTrim trimEnd
    rw [hd]
    have hrev : s.reverse.dropWhile isJsWhitespace = s.reverse := by
      apply (dropWhile_eq_self_iff_head _ _).mpr
      intro c hc
      rw [List.head?_reverse] at hc
      exact h2 c hc
    rw [hrev, List.reverse_reverse]

theorem jsTrim_sublist (s : JStr) : List.Sublist (jsTrim s) s := by
  have h2 : List.Sublist (jsTrim s) (s.dropWhile isJsWhitespace) := by
    have h4 := ((List.dropWhile_sublist isJsWhitespace
      (l := (s.dropWhile isJsWhitespace).reverse))).reverse
    rw [List.reverse_reverse] at h4
    exact h4
  exact h2.trans (List.dropWhile_sublist isJsWhitespace)

theorem replace_pipe_then_caret (s : JStr) :
    (s.map (fun c => if c = '|' then SOH else c)).map (fun c => if c = '^' then SOH else c)
      = s.map (fun c => if c = '|' ∨ c = '^' then SOH else c) := by
  rw [List.map_map]
  apply List.map_congr_left
  intro c _
  simp only [Function.comp_apply]
  by_cases h1 : c = '|'
  · rw [if_pos h1, if_neg (by decide : ¬ SOH = '^'), if_pos (Or.inl h1)]
  · rw [if_neg h1]
    by_cases h2 : c = '^'
    · rw [if_pos h2, if_pos (Or.inr h2)]
    · have hnot : ¬(c = '|' ∨ c = '^') := by
        rintro (hh | hh)
        · exact h1 hh
        · exact h2 hh
      rw [if_neg h2, if_neg hnot]

theorem map_caret_eq_both_of_no_pipe (s : JStr) (h : '|' ∉ s) :
    s.map (fun c => if c = '^' then SOH else c)
      = s.map (fun c => if c = '|' ∨ c = '^' then SOH else c) := by
  apply List.map_congr_left
  intro c hc
  by_cases h2 : c = '^'
  · rw [if_pos h2, if_pos (Or.inr h2)]
  · have hnot : ¬(c = '|' ∨ c = '^') := by
      rintro (h1 | h1)
      · exact h (h1 ▸ hc)
      · exact h2 h1
    rw [if_neg h2, if_neg hnot]

theorem map_pipe_eq_both_of_no_caret (s : JStr) (h : '^' ∉ s) :
    s.map (fun c => if c = '|' then SOH else c)
      = s.map (fun c => if c = '|' ∨ c = '^' then SOH else c) := by
  apply List.map_congr_left
  intro c hc
  by_cases h1 : c = '|'
  · rw [if_pos h1, if_pos (Or.inl h1)]
  · have hnot : ¬(c = '|' ∨ c = '^') := by
      rintro (hh | hh)
      · exact h1 hh
      · exact h (hh ▸ hc)
    rw [if_neg h1, if_neg hnot]

theorem map_both_eq_self_of_none (s : JStr) (h1 : '|' ∉ s) (h2 : '^' ∉ s) :
    s.map (fun c => if c = '|' ∨ c = '^' then SOH else c) = s := by
  have hpt : s.map (fun c => if c = '|' ∨ c = '^' then SOH else c) = s.map id := by
    apply List.map_congr_left
    intro c hc
    have hnot : ¬(c = '|' ∨ c = '^') := by
      rintro (hh | hh)
      · exact h1 (hh ▸ hc)
      · exact h2 (hh ▸ hc)
    rw [if_neg hnot]
    rfl
  rw [hpt, List.map_id]

/-- Claim C3: `autoRepair` returns `null` exactly when the input has no
leading or trailing whitespace and contains neither pipe nor caret;
otherwise it returns the trimmed string with every pipe and caret
replaced by SOH — never the unchanged input. -/
theorem autoRepair_null_iff (raw : JStr) :
    (autoRepair raw = none ↔
      ((∀ c, raw.head? = some c → isJsWhitespace c = false)
        ∧ (∀ c, raw.getLast? = some c → isJsWhitespace c = false)
        ∧ '|' ∉ raw ∧ '^' ∉ raw))
    ∧ (∀ r, autoRepair raw = some r →
        r = (jsTrim raw).map (fun c => if c = '|' ∨ c = '^' then SOH else c) ∧ r ≠ raw) := by
  have hsubset : ∀ x : Char, x ∈ jsTrim raw → x ∈ raw :=
    fun x hx => (jsTrim_sublist raw).subset hx
  constructor
  · by_cases hpipe : '|' ∈ jsTrim raw
    · have hsome : autoRepair raw ≠ none := by
        simp only [autoRepair]
        rw [if_pos hpipe, if_pos hpipe, ite_self, if_pos rfl]
        simp
      apply iff_of_false hsome
      rintro ⟨_, _, hnr, _⟩
      exact hnr (hsubset '|' hpipe)
    · by_cases hcaret : '^' ∈ jsTrim raw
      · have hsome : autoRepair raw ≠ none := by
          simp only [autoRepair]
          rw [if_neg hpipe, if_neg hpipe, if_pos hcaret, if_pos rfl]
          simp
        apply iff_of_false hsome
        rintro ⟨_, _, _, hnr⟩
        exact hnr (hsubset '^' hcaret)
      · by_cases htr : jsTrim raw = raw
        · have hnone : autoRepair raw = none := by
            simp only [autoRepair]
            rw [if_neg hpipe, if_neg hpipe, if_neg hcaret, if_neg hcaret,
              show (jsTrim raw != raw) = false by simp [htr]]
            simp
          have hconds := (jsTrim_eq_self_iff raw).mp htr
          exact iff_of_true hnone ⟨hconds.1, hconds.2, htr ▸ hpipe, htr ▸ hcaret⟩
        · have hsome : autoRepair raw ≠ none := by
            simp only [autoRepair]
            rw [if_neg hpipe, if_neg hpipe, if_neg hcaret, if_neg hcaret,
              show (jsTrim raw != raw) = true by simp [htr]]
            simp
          apply iff_of_false hsome
          rintro ⟨h1, h2, _, _⟩
          exact htr ((jsTrim_eq_self_iff raw).mpr ⟨h1, h2⟩)
  · intro r hr
    by_cases hpipe : '|' ∈ jsTrim raw
    · simp only [autoRepair] at hr
      rw [if_pos hpipe, if_pos hpipe, ite_self, if_pos rfl] at hr
      injection hr with hr2
      simp only [jsJoin_jsSplit_eq_map] at hr2
      have hpraw : '|' ∈ raw := hsubset '|' hpipe
      by_cases hcar2 : '^' ∈ (jsTrim raw).map (fun c => if c = '|' then SOH else c)
      · rw [if_pos hcar2] at hr2
        have hctr : '^' ∈ jsTrim raw :=
          (mem_map_replace_other '|' SOH '^' (by decide) (by decide) _).mp hcar2
        have hcraw : '^' ∈ raw := hsubset '^' hctr
        have hnc : '^' ∉ ((jsTrim raw).map (fun c => if c = '|' then SOH else c)).map
            (fun c => if c = '^' then SOH else c) :=
          not_mem_map_replace_self '^' SOH (by decide) _
        constructor
        · rw [← hr2, replace_pipe_then_caret]
        · intro hcontra
          rw [← hr2] at hcontra
          rw [hcontra] at hnc
          exact hnc hcraw
      · rw [if_neg hcar2] at hr2
        have hnc : '^' ∉ jsTrim raw := fun hh =>
          hcar2 ((mem_map_replace_other '|' SOH '^' (by decide) (by decide) _).mpr hh)
        have hnp : '|' ∉ (jsTrim raw).map (fun c => if c = '|' then SOH else c) :=
          not_mem_map_replace_self '|' SOH (by decide) _
        constructor
        · rw [← hr2, map_pipe_eq_both_of_no_caret _ hnc]
        · intro hcontra
          rw [← hr2] at hcontra
          rw [hcontra] at hnp
          exact hnp hpraw
    · by_cases hcaret : '^' ∈ jsTrim raw
      · simp only [autoRepair] at hr
        rw [if_neg hpipe, if_neg hpipe, if_pos hcaret, if_pos hcaret, if_pos rfl] at hr
        injection hr with hr2
        simp only [jsJoin_jsSplit_eq_map] at hr2
        have hcraw : '^' ∈ raw := hsubset '^' hcaret
        have hnc : '^' ∉ (jsTrim raw).map (fun c => if c = '^' then SOH else c) :=
          not_mem_map_replace_self '^' SOH (by decide) _
        constructor
        · rw [← hr2, map_caret_eq_both_of_no_pipe _ hpipe]
        · intro hcontra
          rw [← hr2] at hcontra
          rw [hcontra] at hnc
          exact hnc hcraw
      · by_cases htr : jsTrim raw = raw
        · exfalso
          have hnone : autoRepair raw = none := by
            simp only [autoRepair]
            rw [if_neg hpipe, if_neg hpipe, if_neg hcaret, if_neg hcaret,
              show (jsTrim raw != raw) = false by simp [htr]]
            simp
          rw [hnone] at hr
          cases hr
        · simp only [autoRepair] at hr
          rw [if_neg hpipe, if_neg hpipe, if_neg hcaret, if_neg hcaret,
            show (jsTrim raw != raw) = true by simp [htr], if_pos rfl] at hr
          injection hr with hr2
          constructor
          · rw [← hr2, map_both_eq_self_of_none _ hpipe hcaret]
          · rw [← hr2]; exact htr

/-- Witness for C3: a concrete input with whitespace, a pipe and a caret. -/
theorem autoRepair_null_iff_witness :
    ("8=F\x019\x01".data =
      (jsTrim (" 8=F|9^ ".data)).map (fun c => if c = '|' ∨ c = '^' then SOH else c))
    ∧ "8=F\x019\x01".data ≠ " 8=F|9^ ".data :=
  (autoRepair_null_iff (" 8=F|9^ ".data)).2 ("8=F\x019\x01".data) (by decide)

/-! ## Claim theorems: repair suggestion ordering -/

/-- Rank of a suggestion type in the engine's fixed emission order. -/
def suggestionPriority (t : JStr) : Nat :=
  if t = "normalize_delimiters".data then 0
  else if t = "trim_whitespace".data then 1
  else if t = "add_equals".data then 2
  else if t = "fix_tag_format".data then 3
  else if t = "add_required_fields".data then 4
  else if t = "reorder_fields".data then 5
  else 6

theorem suggestDelimiters_shape (raw : JStr) (issues : List ParseIssue) :
    suggestDelimiters raw issues = [] ∨
      ∃ s : RepairSuggestion, suggestDelimiters raw issues = [s]
        ∧ s.type = "normalize_delimiters".data := by
  simp only [suggestDelimiters]
  split
  · split
    · right; exact ⟨_, rfl, rfl⟩
    · left; rfl
  · left; rfl

theorem suggestWhitespace_shape (raw : JStr) (issues : List ParseIssue) :
    suggestWhitespace raw issues = [] ∨
      ∃ s : RepairSuggestion, suggestWhitespace raw issues = [s]
        ∧ s.type = "trim_whitespace".data := by
  simp only [suggestWhitespace]
  split
  · right; exact ⟨_, rfl, rfl⟩
  · left; rfl

theorem suggestMissingEquals_shape (issues : List ParseIssue) :
    suggestMissingEquals issues = [] ∨
      ∃ s : RepairSuggestion, suggestMissingEquals issues = [s]
        ∧ s.type = "add_equals".data := by
  simp only [suggestMissingEquals]
  split
  · split
    · left; rfl
    · split
      · left; rfl
      · split
        · split
          · left; rfl
          · right; exact ⟨_, rfl, rfl⟩
        · left; rfl
  · left; rfl

theorem suggestInvalidTag_shape (issues : List ParseIssue) :
    suggestInvalidTag issues = [] ∨
      ∃ s : RepairSuggestion, suggestInvalidTag issues = [s]
        ∧ s.type = "fix_tag_format".data := by
  simp only [suggestInvalidTag]
  split
  · right; exact ⟨_, rfl, rfl⟩
  · left; rfl

theorem suggestRequiredFields_shape (issues : List ParseIssue) :
    suggestRequiredFields issues = [] ∨
      ∃ s : RepairSuggestion, suggestRequiredFields issues = [s]
        ∧ s.type = "add_required_fields".data := by
  simp only [suggestRequiredFields]
  split
  · split
    · right; exact ⟨_, rfl, rfl⟩
    · left; rfl
  · left; rfl

theorem shape_length_le_one {l : List RepairSuggestion} {T : JStr}
    (h : l = [] ∨ ∃ s, l = [s] ∧ s.type = T) : l.length ≤ 1 := by
  rcases h with h | ⟨s, h, _⟩ <;> simp [h]

theorem shape_types {l : List RepairSuggestion} {T : JStr}
    (h : l = [] ∨ ∃ s, l = [s] ∧ s.type = T) : ∀ s ∈ l, s.type = T := by
  rcases h with h | ⟨x, h, hx⟩ <;> subst h
  · intro s hs; cases hs
  · intro s hs
    rw [List.mem_singleton] at hs
    rw [hs]
    exact hx

theorem suggestFieldOrder_types (issues : List ParseIssue) :
    ∀ s ∈ suggestFieldOrder issues, s.type = "reorder_fields".data := by
  intro s hs
  simp only [suggestFieldOrder] at hs
  split at hs
  · rcases List.mem_filterMap.mp hs with ⟨i, _, hgi⟩
    split at hgi
    · cases hgi; rfl
    · split at hgi
      · cases hgi; rfl
      · cases hgi
  · cases hs

theorem suggestFieldOrder_length (issues : List ParseIssue) :
    (suggestFieldOrder issues).length =
      (issues.filter (fun i => i.type == "invalid_field_order".data &&
        (containsSub ("BeginString".data) i.message ||
         containsSub ("CheckSum".data) i.message))).length := by
  simp only [suggestFieldOrder]
  split
  · rw [List.length_filterMap_eq_countP, List.countP_filter, ← List.countP_eq_length_filter]
    apply List.countP_congr
    intro i _
    by_cases hB : containsSub ("BeginString".data) i.message = true
    · simp [hB]
    · by_cases hC : containsSub ("CheckSum".data) i.message = true
      · simp [hB, hC]
      · simp [hB, hC]
  · rename_i hno
    rw [show (issues.filter (fun i => i.type == "invalid_field_order".data &&
        (containsSub ("BeginString".data) i.message ||
         containsSub ("CheckSum".data) i.message))) = [] from ?_]
    · rfl
    · apply List.filter_eq_nil_iff.mpr
      intro i hi
      intro hcond
      rw [Bool.and_eq_true] at hcond
      apply hno
      rw [List.mem_map]
      refine ⟨i, hi, ?_⟩
      have := hcond.1
      rwa [beq_iff_eq] at this

theorem filter_length_le_one {l : List RepairSuggestion} (h : l.length ≤ 1)
    (p : RepairSuggestion → Bool) : (l.filter p).length ≤ 1 :=
  le_trans (List.length_filter_le _ _) h

theorem filter_ne_type_eq_nil {l : List RepairSuggestion} {T T' : JStr}
    (htype : ∀ s ∈ l, s.type = T) (hne : ¬ T = T') :
    l.filter (fun s => s.type == T') = [] := by
  apply List.filter_eq_nil_iff.mpr
  intro s hs hcond
  rw [htype s hs, beq_iff_eq] at hcond
  exact hne hcond

theorem pairwise_priority_of_const {l : List RepairSuggestion} {n : Nat}
    (h : ∀ s ∈ l, suggestionPriority s.type = n) :
    List.Pairwise (fun a b => suggestionPriority a.type ≤ suggestionPriority b.type) l := by
  induction l with
  | nil => exact List.Pairwise.nil
  | cons a as ih =>
    refine List.Pairwise.cons ?_ (ih (fun s hs => h s (List.mem_cons_of_mem _ hs)))
    intro b hb
    rw [h a (List.mem_cons_self _ _), h b (List.mem_cons_of_mem _ hb)]

theorem pairwise_priority_append {l1 l2 : List RepairSuggestion} {n : Nat}
    (h1 : ∀ s ∈ l1, suggestionPriority s.type ≤ n)
    (h2 : ∀ s ∈ l2, n ≤ suggestionPriority s.type)
    (p1 : List.Pairwise (fun a b => suggestionPriority a.type ≤ suggestionPriority b.type) l1)
    (p2 : List.Pairwise (fun a b => suggestionPriority a.type ≤ suggestionPriority b.type) l2) :
    List.Pairwise (fun a b => suggestionPriority a.type ≤ suggestionPriority b.type) (l1 ++ l2) := by
  rw [List.pairwise_append]
  exact ⟨p1, p2, fun a ha b hb => le_trans (h1 a ha) (h2 b hb)⟩

/-- Claim C7 counterexample: two identical field-order issues (a single
distinct order-violation message) produce two `reorder_fields`
suggestions, not one per distinct message. -/
theorem reorder_duplicate_counterexample :
    ((generateRepairSuggestions []
        [⟨"invalid_field_order".data, "CheckSum (tag 10) must be last field if present".data, some 1⟩,
         ⟨"invalid_field_order".data, "CheckSum (tag 10) must be last field if present".data, some 1⟩]).filter
      (fun s => s.type == "reorder_fields".data)).length = 2 := by decide

/-- Claim C7 amended: suggestions appear in the fixed priority order
delimiter → whitespace → missing-equals → invalid-tag →
missing-required-fields → field-order regardless of the order issues were
supplied, with at most one suggestion per type other than
`reorder_fields`; the field-order block yields one suggestion per
`invalid_field_order` issue whose message mentions BeginString or
CheckSum (duplicated issues each yield their own suggestion). -/
theorem generateRepairSuggestions_priority_order (raw : JStr) (issues : List ParseIssue) :
    List.Pairwise (fun a b => suggestionPriority a.type ≤ suggestionPriority b.type)
      (generateRepairSuggestions raw issues)
    ∧ ((generateRepairSuggestions raw issues).filter
        (fun s => s.type == "normalize_delimiters".data)).length ≤ 1
    ∧ ((generateRepairSuggestions raw issues).filter
        (fun s => s.type == "trim_whitespace".data)).length ≤ 1
    ∧ ((generateRepairSuggestions raw issues).filter
        (fun s => s.type == "add_equals".data)).length ≤ 1
    ∧ ((generateRepairSuggestions raw issues).filter
        (fun s => s.type == "fix_tag_format".data)).length ≤ 1
    ∧ ((generateRepairSuggestions raw issues).filter
        (fun s => s.type == "add_required_fields".data)).length ≤ 1
    ∧ ((generateRepairSuggestions raw issues).filter
        (fun s => s.type == "general".data)).length ≤ 1
    ∧ ((generateRepairSuggestions raw issues).filter
        (fun s => s.type == "reorder_fields".data)).length =
      (issues.filter (fun i => i.type == "invalid_field_order".data &&
        (containsSub ("BeginString".data) i.message ||
         containsSub ("CheckSum".data) i.message))).length := by
  have sh1 := suggestDelimiters_shape raw issues
  have sh2 := suggestWhitespace_shape raw issues
  have sh3 := suggestMissingEquals_shape issues
  have sh4 := suggestInvalidTag_shape issues
  have sh5 := suggestRequiredFields_shape issues
  have ty6 := suggestFieldOrder_types issues
  have len6 := suggestFieldOrder_length issues
  simp only [generateRepairSuggestions]
  split
  · rename_i hgen
    -- the general fallback branch: the six blocks were all empty
    have h6nil : suggestFieldOrder issues = [] := by
      have := hgen.1
      rw [List.length_append, List.length_append, List.length_append,
        List.length_append, List.length_append] at this
      have h6 : (suggestFieldOrder issues).length = 0 := by omega
      exact List.length_eq_zero.mp h6
    refine ⟨?_, ?_, ?_, ?_, ?_, ?_, ?_, ?_⟩
    · exact List.pairwise_singleton _ _
    · rw [show (([⟨"general".data,
          "Fix ".data ++ natStr issues.length ++ " validation issue(s) found in the message".data,
          some ("Review the issues list and correct the message format".data)⟩] :
            List RepairSuggestion).filter (fun s => s.type == "normalize_delimiters".data)) = []
        from by simp [List.filter]]
      simp
    · rw [show (([⟨"general".data,
          "Fix ".data ++ natStr issues.length ++ " validation issue(s) found in the message".data,
          some ("Review the issues list and correct the message format".data)⟩] :
            List RepairSuggestion).filter (fun s => s.type == "trim_whitespace".data)) = []
        from by simp [List.filter]]
      simp
    · rw [show (([⟨"general".data,
          "Fix ".data ++ natStr issues.length ++ " validation issue(s) found in the message".data,
          some ("Review the issues list and correct the message format".data)⟩] :
            List RepairSuggestion).filter (fun s => s.type == "add_equals".data)) = []
        from by simp [List.filter]]
      simp
    · rw [show (([⟨"general".data,
          "Fix ".data ++ natStr issues.length ++ " validation issue(s) found in the message".data,
          some ("Review the issues list and correct the message format".data)⟩] :
            List RepairSuggestion).filter (fun s => s.type == "fix_tag_format".data)) = []
        from by simp [List.filter]]
      simp
    · rw [show (([⟨"general".data,
          "Fix ".data ++ natStr issues.length ++ " validation issue(s) found in the message".data,
          some ("Review the issues list and correct the message format".data)⟩] :
            List RepairSuggestion).filter (fun s => s.type == "add_required_fields".data)) = []
        from by simp [List.filter]]
      simp
    · exact filter_length_le_one (by simp) _
    · rw [show (([⟨"general".data,
          "Fix ".data ++ natStr issues.length ++ " validation issue(s) found in the message".data,
          some ("Review the issues list and correct the message format".data)⟩] :
            List RepairSuggestion).filter (fun s => s.type == "reorder_fields".data)) = []
        from by simp [List.filter]]
      rw [← len6, h6nil]
  · -- the normal branch: the concatenation of the six blocks
    have pw : List.Pairwise (fun a b => suggestionPriority a.type ≤ suggestionPriority b.type)
        (suggestDelimiters raw issues ++ suggestWhitespace raw issues ++
          suggestMissingEquals issues ++ suggestInvalidTag issues ++
          suggestRequiredFields issues ++ suggestFieldOrder issues) := by
      have e1 : ∀ s ∈ suggestDelimiters raw issues, suggestionPriority s.type = 0 := by
        intro s hs; rw [shape_types sh1 s hs]; rfl
      have e2 : ∀ s ∈ suggestWhitespace raw issues, suggestionPriority s.type = 1 := by
        intro s hs; rw [shape_types sh2 s hs]; rfl
      have e3 : ∀ s ∈ suggestMissingEquals issues, suggestionPriority s.type = 2 := by
        intro s hs; rw [shape_types sh3 s hs]; rfl
      have e4 : ∀ s ∈ suggestInvalidTag issues, suggestionPriority s.type = 3 := by
        intro s hs; rw [shape_types sh4 s hs]; rfl
      have e5 : ∀ s ∈ suggestRequiredFields issues, suggestionPriority s.type = 4 := by
        intro s hs; rw [shape_types sh5 s hs]; rfl
      have e6 : ∀ s ∈ suggestFieldOrder issues, suggestionPriority s.type = 5 := by
        intro s hs; rw [ty6 s hs]; rfl
      have p56 : List.Pairwise (fun a b => suggestionPriority a.type ≤ suggestionPriority b.type)
          (suggestRequiredFields issues ++ suggestFieldOrder issues) :=
        pairwise_priority_append (n := 5)
          (fun s hs => by rw [e5 s hs]; omega)
          (fun s hs => by rw [e6 s hs])
          (pairwise_priority_of_const e5) (pairwise_priority_of_const e6)
      have b56 : ∀ s ∈ suggestRequiredFields issues ++ suggestFieldOrder issues,
          4 ≤ suggestionPriority s.type := by
        intro s hs
        rcases List.mem_append.mp hs with hs | hs
        · rw [e5 s hs]
        · rw [e6 s hs]; omega
      have p456 : List.Pairwise (fun a b => suggestionPriority a.type ≤ suggestionPriority b.type)
          (suggestInvalidTag issues ++ (suggestRequiredFields issues ++ suggestFieldOrder issues)) :=
        pairwise_priority_append (n := 4)
          (fun s hs => by rw [e4 s hs]; omega)
          b56 (pairwise_priority_of_const e4) p56
      have b456 : ∀ s ∈ suggestInvalidTag issues ++
          (suggestRequiredFields issues ++ suggestFieldOrder issues),
          3 ≤ suggestionPriority s.type := by
        intro s hs
        rcases List.mem_append.mp hs with hs | hs
        · rw [e4 s hs]
        · exact le_trans (by omega) (b56 s hs)
      have p3456 : List.Pairwise (fun a b => suggestionPriority a.type ≤ suggestionPriority b.type)
          (suggestMissingEquals issues ++ (suggestInvalidTag issues ++
            (suggestRequiredFields issues ++ suggestFieldOrder issues))) :=
        pairwise_priority_append (n := 3)
          (fun s hs => by rw [e3 s hs]; omega)
          b456 (pairwise_priority_of_const e3) p456
      have b3456 : ∀ s ∈ suggestMissingEquals issues ++ (suggestInvalidTag issues ++
          (suggestRequiredFields issues ++ suggestFieldOrder issues)),
          2 ≤ suggestionPriority s.type := by
        intro s hs
        rcases List.mem_append.mp hs with hs | hs
        · rw [e3 s hs]
        · exact le_trans (by omega) (b456 s hs)
      have p23456 : List.Pairwise (fun a b => suggestionPriority a.type ≤ suggestionPriority b.type)
          (suggestWhitespace raw issues ++ (suggestMissingEquals issues ++
            (suggestInvalidTag issues ++
              (suggestRequiredFields issues ++ suggestFieldOrder issues)))) :=
        pairwise_priority_append (n := 2)
          (fun s hs => by rw [e2 s hs]; omega)
          b3456 (pairwise_priority_of_const e2) p3456
      have b23456 : ∀ s ∈ suggestWhitespace raw issues ++ (suggestMissingEquals issues ++
          (suggestInvalidTag issues ++
            (suggestRequiredFields issues ++ suggestFieldOrder issues))),
          1 ≤ suggestionPriority s.type := by
        intro s hs
        rcases List.mem_append.mp hs with hs | hs
        · rw [e2 s hs]
        · exact le_trans (by omega) (b3456 s hs)
      have pAll : List.Pairwise (fun a b => suggestionPriority a.type ≤ suggestionPriority b.type)
          (suggestDelimiters raw issues ++ (suggestWhitespace raw issues ++
            (suggestMissingEquals issues ++ (suggestInvalidTag issues ++
              (suggestRequiredFields issues ++ suggestFieldOrder issues))))) :=
        pairwise_priority_append (n := 1)
          (fun s hs => by rw [e1 s hs]; omega)
          b23456 (pairwise_priority_of_const e1) p23456
      have hassoc : suggestDelimiters raw issues ++ suggestWhitespace raw issues ++
          suggestMissingEquals issues ++ suggestInvalidTag issues ++
          suggestRequiredFields issues ++ suggestFieldOrder issues =
          suggestDelimiters raw issues ++ (suggestWhitespace raw issues ++
            (suggestMissingEquals issues ++ (suggestInvalidTag issues ++
              (suggestRequiredFields issues ++ suggestFieldOrder issues)))) := by
        simp [List.append_assoc]
      rw [hassoc]
      exact pAll
    have hfil : ∀ T' : JStr,
        ((suggestDelimiters raw issues ++ suggestWhitespace raw issues ++
          suggestMissingEquals issues ++ suggestInvalidTag issues ++
          suggestRequiredFields issues ++ suggestFieldOrder issues).filter
            (fun s => s.type == T')) =
        (suggestDelimiters raw issues).filter (fun s => s.type == T') ++
        (suggestWhitespace raw issues).filter (fun s => s.type == T') ++
        (suggestMissingEquals issues).filter (fun s => s.type == T') ++
        (suggestInvalidTag issues).filter (fun s => s.type == T') ++
        (suggestRequiredFields issues).filter (fun s => s.type == T') ++
        (suggestFieldOrder issues).filter (fun s => s.type == T') := by
      intro T'
      simp [List.filter_append]
    refine ⟨pw, ?_, ?_, ?_, ?_, ?_, ?_, ?_⟩
    · rw [hfil]
      rw [filter_ne_type_eq_nil (shape_types sh2) (by decide),
        filter_ne_type_eq_nil (shape_types sh3) (by decide),
        filter_ne_type_eq_nil (shape_types sh4) (by decide),
        filter_ne_type_eq_nil (shape_types sh5) (by decide),
        filter_ne_type_eq_nil ty6 (by decide)]
      simpa using filter_length_le_one (shape_length_le_one sh1) _
    · rw [hfil]
      rw [filter_ne_type_eq_nil (shape_types sh1) (by decide),
        filter_ne_type_eq_nil (shape_types sh3) (by decide),
        filter_ne_type_eq_nil (shape_types sh4) (by decide),
        filter_ne_type_eq_nil (shape_types sh5) (by decide),
        filter_ne_type_eq_nil ty6 (by decide)]
      simpa using filter_length_le_one (shape_length_le_one sh2) _
    · rw [hfil]
      rw [filter_ne_type_eq_nil (shape_types sh1) (by decide),
        filter_ne_type_eq_nil (shape_types sh2) (by decide),
        filter_ne_type_eq_nil (shape_types sh4) (by decide),
        filter_ne_type_eq_nil (shape_types sh5) (by decide),
        filter_ne_type_eq_nil ty6 (by decide)]
      simpa using filter_length_le_one (shape_length_le_one sh3) _
    · rw [hfil]
      rw [filter_ne_type_eq_nil (shape_types sh1) (by decide),
        filter_ne_type_eq_nil (shape_types sh2) (by decide),
        filter_ne_type_eq_nil (shape_types sh3) (by decide),
        filter_ne_type_eq_nil (shape_types sh5) (by decide),
        filter_ne_type_eq_nil ty6 (by decide)]
      simpa using filter_length_le_one (shape_length_le_one sh4) _
    · rw [hfil]
      rw [filter_ne_type_eq_nil (shape_types sh1) (by decide),
        filter_ne_type_eq_nil (shape_types sh2) (by decide),
        filter_ne_type_eq_nil (shape_types sh3) (by decide),
        filter_ne_type_eq_nil (shape_types sh4) (by decide),
        filter_ne_type_eq_nil ty6 (by decide)]
      simpa using filter_length_le_one (shape_length_le_one sh5) _
    · rw [hfil]
      rw [filter_ne_type_eq_nil (shape_types sh1) (by decide),
        filter_ne_type_eq_nil (shape_types sh2) (by decide),
        filter_ne_type_eq_nil (shape_types sh3) (by decide),
        filter_ne_type_eq_nil (shape_types sh4) (by decide),
        filter_ne_type_eq_nil (shape_types sh5) (by decide),
        filter_ne_type_eq_nil ty6 (by decide)]
      simp
    · rw [hfil]
      rw [filter_ne_type_eq_nil (shape_types sh1) (by decide),
        filter_ne_type_eq_nil (shape_types sh2) (by decide),
        filter_ne_type_eq_nil (shape_types sh3) (by decide),
        filter_ne_type_eq_nil (shape_types sh4) (by decide),
        filter_ne_type_eq_nil (shape_types sh5) (by decide)]
      rw [show (suggestFieldOrder issues).filter (fun s => s.type == "reorder_fields".data) =
          suggestFieldOrder issues from ?_]
      · simpa using len6
      · apply List.filter_eq_self.mpr
        intro s hs
        rw [ty6 s hs]
        exact beq_self_eq_true _


end Fix
